import Mathlib

/-
Verification of the elefren event-stream decoder, pagination engine and
streaming-endpoint plumbing, shallowly embedded from the Rust sources.

Text lines are embedded as their character sequences (`List Char`), because the
relevant Rust string operations (`trim`, `starts_with`, byte slicing at ASCII
prefixes) act on the character sequence for the ASCII inputs involved.  JSON
entity decoding (serde) is an external collaborator and is passed in as a
record of decoder functions.
-/

namespace Elefren

/-- A Rust string slice, as its character sequence. -/
abbrev Str := List Char

/-- Shorthand for writing `Str` literals. -/
def str (s : String) : Str := s.data

/-- Whitespace test: the fragment of Rust `char::is_whitespace` relevant to the
line-oriented protocol (space, tab, carriage return, line feed). -/
def isWs (c : Char) : Bool := c = ' ' || c = '\t' || c = '\n' || c = '\r'

/-- Drop leading whitespace. -/
def trimLeft : Str → Str
  | [] => []
  | c :: cs => if isWs c then trimLeft cs else c :: cs

/-- Rust `str::trim`: drop leading and trailing whitespace. -/
def trim (s : Str) : Str := trimLeft (trimLeft s.reverse).reverse

/-- Rust `str::starts_with`. -/
def startsWith (s p : Str) : Bool := p.isPrefixOf s

/-- A decoded `Status` entity.  The JSON schema itself is out of scope; the
entity is kept abstract as the text it was decoded from. -/
structure Status where
  json : Str
deriving DecidableEq

/-- A decoded `Notification` entity, kept abstract like `Status`. -/
structure Notification where
  json : Str
deriving DecidableEq

/-- The dialect-B JSON envelope: `struct Message` in
`src/event_stream.rs` lines 74-78, with fields `event : String` and
`payload : Option<String>`. -/
structure Message where
  event : Str
  payload : Option Str
deriving DecidableEq

/-- The serde decoders used by the event readers, passed in as an external
collaborator: `serde_json::from_str::<Status>`, `::<Notification>` and
`::<Message>`.  `none` models a serde parse error. -/
structure Codec where
  decStatus : Str → Option Status
  decNotif : Str → Option Notification
  decMessage : Str → Option Message

/-- The `Event` enum from `src/entities/event.rs` as re-exported in both
readers: `Update(Status)`, `Notification(Notification)`, `Delete(String)`,
`FiltersChanged`. -/
inductive Event where
  | update (s : Status)
  | delete (id : Str)
  | filtersChanged
  | notif (n : Notification)
deriving DecidableEq

/-- The errors produced by the two `make_event` implementations.
`missingPayload ev` is `Error::Other("Missing data line for <ev>")`,
`unknownEvent ev` is `Error::Other("Unknown event <ev>")`,
`decode` is a propagated serde error, and `noEventLine` is the
`Error::Other("No event: line")` produced only by the `lib.rs` reader. -/
inductive Err where
  | missingPayload (event : Str)
  | unknownEvent (event : Str)
  | decode
  | noEventLine
deriving DecidableEq

/-- The shared match on `(event name, optional payload)` that closes both
`make_event` implementations (`src/event_stream.rs` lines 84-105 and
`src/lib.rs` lines 589-613): `notification` and `update` require a payload and
decode it as an entity, `delete` requires a payload and uses it verbatim,
`filters_changed` needs no payload, and any other name is an unknown event. -/
def eventFromPair (c : Codec) (event : Str) (data : Option Str) : Except Err Event :=
  if event = str "notification" then
    match data with
    | none => .error (.missingPayload (str "notification"))
    | some d =>
      match c.decNotif d with
      | some n => .ok (.notif n)
      | none => .error .decode
  else if event = str "update" then
    match data with
    | none => .error (.missingPayload (str "update"))
    | some d =>
      match c.decStatus d with
      | some s => .ok (.update s)
      | none => .error .decode
  else if event = str "delete" then
    match data with
    | none => .error (.missingPayload (str "delete"))
    | some d => .ok (.delete d)
  else if event = str "filters_changed" then
    .ok .filtersChanged
  else
    .error (.unknownEvent event)

/-- `EventReader::make_event` from `src/event_stream.rs` lines 63-106.
If some accumulated line starts with `event:` (dialect A), the event name is
the remainder of the first such line, trimmed, and the payload is the remainder
of the first `data:` line, trimmed, if any.  Otherwise (dialect B) the first
accumulated line is parsed as a JSON `Message`; a parse failure propagates as a
serde error.  The Rust indexes `lines[0]`; the caller only invokes it with a
non-empty accumulator, so `headD` is exact on every reachable call. -/
def makeEvent (c : Codec) (lines : List Str) : Except Err Event :=
  match lines.find? (fun l => startsWith l (str "event:")) with
  | some eventLine =>
    eventFromPair c (trim (eventLine.drop 6))
      ((lines.find? (fun l => startsWith l (str "data:"))).map (fun x => trim (x.drop 5)))
  | none =>
    match c.decMessage (lines.headD []) with
    | some m => eventFromPair c m.event m.payload
    | none => .error .decode

/-- One result of `EventStream::read_message`: a line, or a read error. -/
inductive ReadResult where
  | ok (line : Str)
  | err
deriving DecidableEq

/-- `EventReader::next` from `src/event_stream.rs` lines 42-59, fuel-indexed.
The source is the list of pending `read_message` results; the empty list is an
exhausted source, where `BufRead::read_line` keeps returning `Ok` with an empty
buffer and a closed WebSocket keeps returning `Err` — in both cases the loop
body skips and retries, with the accumulator unchanged, which the `[]` case
models directly.  `none` means the loop has not returned within `fuel` reads;
the Rust loop has no other exit: no branch of `next` returns `None`. -/
def pull (c : Codec) : Nat → List ReadResult → List Str → Option (Event × List ReadResult)
  | 0, _, _ => none
  | fuel + 1, [], lines => pull c fuel [] lines
  | fuel + 1, .err :: rest, lines => pull c fuel rest lines
  | fuel + 1, .ok raw :: rest, lines =>
    let line := trim raw
    if startsWith line (str ":") || line.isEmpty then pull c fuel rest lines
    else
      let lines1 := lines ++ [line]
      match makeEvent c lines1 with
      | .ok ev => some (ev, rest)
      | .error _ => pull c fuel rest lines1

/-- `EventReader::make_event` from `src/lib.rs` lines 582-615: same shape as
the `event_stream.rs` version, except that the absence of an `event:` line is
an error (no dialect-B fallback). -/
def makeEventOld (c : Codec) (lines : List Str) : Except Err Event :=
  match lines.find? (fun l => startsWith l (str "event:")) with
  | none => .error .noEventLine
  | some eventLine =>
    eventFromPair c (trim (eventLine.drop 6))
      ((lines.find? (fun l => startsWith l (str "data:"))).map (fun x => trim (x.drop 5)))

/-- `EventReader::next` from `src/lib.rs` lines 554-579, fuel-indexed.
Comment lines are skipped; a blank line with a non-empty accumulator triggers a
completion attempt (on failure the accumulator is kept and the blank line is
not pushed); every other line — including a blank line on an empty
accumulator — is pushed.  The reader is `R: BufRead`, so the exhausted source
(`[]`) keeps producing `Ok` with an empty buffer, i.e. blank lines. -/
def pullOld (c : Codec) : Nat → List ReadResult → List Str → Option (Event × List ReadResult)
  | 0, _, _ => none
  | fuel + 1, [], lines =>
    if lines.isEmpty then pullOld c fuel [] (lines ++ [[]])
    else
      match makeEventOld c lines with
      | .ok ev => some (ev, [])
      | .error _ => pullOld c fuel [] lines
  | fuel + 1, .err :: rest, lines => pullOld c fuel rest lines
  | fuel + 1, .ok raw :: rest, lines =>
    let line := trim raw
    if startsWith line (str ":") then pullOld c fuel rest lines
    else if line.isEmpty && !lines.isEmpty then
      match makeEventOld c lines with
      | .ok ev => some (ev, rest)
      | .error _ => pullOld c fuel rest lines
    else pullOld c fuel rest (lines ++ [line])

/-- A read result the `event_stream.rs` loop skips without touching the
accumulator: a read error, a comment line or a blank line. -/
def skippable : ReadResult → Bool
  | .err => true
  | .ok raw => startsWith (trim raw) (str ":") || (trim raw).isEmpty

/-- A codec whose three decoders always fail; used to evaluate the readers on
dialect-A inputs, where the decoders for `Status`, `Notification` and the
dialect-B envelope are never consulted. -/
def nullCodec : Codec := ⟨fun _ => none, fun _ => none, fun _ => none⟩

/-- A well-formed API error body, kept abstract like the entities. -/
structure ApiError where
  json : Str
deriving DecidableEq

/-- The two error outcomes of `deserialise_blocking` (`src/util.rs`):
`Error::Api` wrapping the decoded error body, or the original serde error
propagated by `Err(e.into())`. -/
inductive FetchError where
  | api (e : ApiError)
  | serde (e : Str)
deriving DecidableEq

/-- `deserialise_blocking` from `src/util.rs` lines 8-28.  The two serde
decoders are external collaborators: `decT` decodes the body as the target
type, `decApi` as the API-error type, each returning the value or the serde
error.  The body is decoded as `T`; on failure the same bytes are decoded as
an API error, and if that also fails the original error of the first decode is
returned.  (`src/lib.rs` `deserialise`, lines 665-679, has the same shape.) -/
def deserialiseBlocking {T : Type} (decT : Str → Except Str T)
    (decApi : Str → Except Str ApiError) (bytes : Str) : Except FetchError T :=
  match decT bytes with
  | .ok t => .ok t
  | .error e =>
    match decApi bytes with
    | .ok apiErr => .error (.api apiErr)
    | .error _ => .error (.serde e)

/-- Split a character sequence at every occurrence of `c` (the pieces do not
contain `c`; n separators give n+1 pieces). -/
def splitOnChar (c : Char) : Str → List Str
  | [] => [[]]
  | x :: xs =>
    match splitOnChar c xs with
    | [] => if x = c then [[], []] else [[x]]
    | y :: ys => if x = c then [] :: y :: ys else (x :: y) :: ys

/-- The characters strictly after the first occurrence of `c`, if any. -/
def afterChar (c : Char) : Str → Option Str
  | [] => none
  | x :: xs => if x = c then some xs else afterChar c xs

/-- The characters strictly before the first occurrence of `c`, if any. -/
def upToChar (c : Char) : Str → Option Str
  | [] => none
  | x :: xs => if x = c then some [] else (upToChar c xs).map (x :: ·)

/-- The text delimited by the first `<` and the following `>`. -/
def extractAngled (s : Str) : Option Str := (afterChar '<' s).bind (upToChar '>')

/-- Strip one leading and one trailing double quote, when present. -/
def stripQuotes (s : Str) : Str :=
  let s1 := if startsWith s (str "\"") then s.drop 1 else s
  if startsWith s1.reverse (str "\"") then (s1.reverse.drop 1).reverse else s1

/-- Modelled from the spec: one `name=value` parameter of a Link-header
segment; yields the quoted-stripped value when the name, trimmed, is `rel`. -/
def paramRel (p : Str) : Option Str :=
  match splitOnChar '=' p with
  | name :: value :: _ => if trim name = str "rel" then some (stripQuotes (trim value)) else none
  | _ => none

/-- Modelled from the spec: the `rel` value of one Link-header segment — the
segment is split on `;` into the URL part and its parameters, and the first
`rel` parameter is consulted. -/
def segRel (seg : Str) : Option Str :=
  match splitOnChar ';' seg with
  | [] => none
  | _url :: params => params.findSome? paramRel

/-- Modelled from the spec (section 4.1): the Link-header parser.  The source
of the `page` module (`src/page.rs`) is declared in `src/lib.rs` but is not
present under `src/`; the spec gives its parsing rule: split the header on
`,`; in each segment the URL is delimited by angle brackets and the parameters
by `;`; a parameter named `rel` with the sought value (quotes stripped)
selects the segment's URL; malformed segments are skipped. -/
def findRel (rel : Str) (hdr : Str) : Option Str :=
  (splitOnChar ',' hdr).findSome? fun seg =>
    match extractAngled seg, segRel seg with
    | some url, some r => if r = rel then some url else none
    | _, _ => none

/-- Modelled from the spec: `Page<T>` — one fetched batch of entities plus the
optional `next` and `prev` URLs parsed from the response's Link header. -/
structure Page (T : Type) where
  items : List T
  next : Option Str
  prev : Option Str
deriving DecidableEq

/-- Modelled from the spec: Page construction from a response body and an
optional Link header; an absent header, or an absent relation, yields `none`
for that field, never an error. -/
def pageFromResponse {T : Type} (items : List T) (linkHeader : Option Str) : Page T :=
  match linkHeader with
  | none => ⟨items, none, none⟩
  | some h => ⟨items, findRel (str "next") h, findRel (str "prev") h⟩

/-- The result of one pagination fetch through the transport adapter: the new
batch and the two relations of the new response's Link header, or a transport
or decode error (kept abstract as text). -/
abbrev FetchResult (T : Type) := Except Str (List T × Option Str × Option Str)

/-- Modelled from the spec: `Page::next_page` — if `next` is `none` the call
returns `Ok(None)` and no request is made; otherwise one GET is issued to the
`next` URL and the response becomes a new Page.  The second component is the
list of URLs requested by the call, so that "no request is made" is a provable
statement. -/
def nextPage {T : Type} (fetch : Str → FetchResult T) (p : Page T) :
    Except Str (Option (Page T)) × List Str :=
  match p.next with
  | none => (.ok none, [])
  | some url =>
    match fetch url with
    | .ok (items, nx, pv) => (.ok (some ⟨items, nx, pv⟩), [url])
    | .error e => (.error e, [url])

/-- Modelled from the spec: `Page::prev_page`, symmetric to `next_page` on the
`prev` relation. -/
def prevPage {T : Type} (fetch : Str → FetchResult T) (p : Page T) :
    Except Str (Option (Page T)) × List Str :=
  match p.prev with
  | none => (.ok none, [])
  | some url =>
    match fetch url with
    | .ok (items, nx, pv) => (.ok (some ⟨items, nx, pv⟩), [url])
    | .error e => (.error e, [url])

/-- Modelled from the spec: the state of the flattening iterator returned by
`into_items_iter` — the items of the current page not yet yielded, and the
current `next` relation. -/
structure ItemsIter (T : Type) where
  buf : List T
  next : Option Str
deriving DecidableEq

/-- Modelled from the spec: the item sequence produced by the flattening
iterator, fuel-indexed.  Items of the current page are yielded in order; on
exhaustion, if there is no `next` link the sequence ends, otherwise the next
page is fetched; a fetch failure ends the sequence silently — no error value
exists in the output type and iteration never resumes. -/
def itemsIterRun {T : Type} (fetch : Str → Except Str (List T × Option Str)) :
    Nat → ItemsIter T → List T
  | 0, _ => []
  | fuel + 1, s =>
    match s.buf with
    | t :: rest => t :: itemsIterRun fetch fuel ⟨rest, s.next⟩
    | [] =>
      match s.next with
      | none => []
      | some url =>
        match fetch url with
        | .error _ => []
        | .ok (items, nx) => itemsIterRun fetch fuel ⟨items, nx⟩

/-- A URL, structured: scheme, authority, path and query pairs. -/
structure Url where
  scheme : Str
  host : Str
  path : Str
  query : List (Str × Str)
deriving DecidableEq

/-- The error outcomes of `Mastodon::streaming_user` (`src/mastodon.rs`):
`Error::Other("Bad URL scheme: ...")`, a failed redirect-resolving GET, or a
failed WebSocket handshake. -/
inductive WsError where
  | badScheme (s : Str)
  | getFailed
  | connectFailed
deriving DecidableEq

/-- A GET request as issued by `reqwest::blocking::get` inside
`streaming_user`: the bare URL and the bearer token of the Authorization
header, if any (this call attaches none, unlike `send_blocking`). -/
structure GetRequest where
  url : Url
  authorized : Option Str
deriving DecidableEq

/-- What `streaming_user` did: its result (the WebSocket URL connected to, or
an error), the redirect-resolving GET it issued, and the list of WebSocket
connection attempts it made. -/
structure StreamingOutcome where
  result : Except WsError Url
  getRequest : GetRequest
  wsAttempts : List Url

/-- The scheme rewrite of `streaming_user` (`src/mastodon.rs` lines 368-372):
`http` becomes `ws`, `https` becomes `wss`, anything else is refused. -/
def schemeMap (s : Str) : Option Str :=
  if s = str "http" then some (str "ws")
  else if s = str "https" then some (str "wss")
  else none

/-- The URL built by `Mastodon::streaming_user` (`src/mastodon.rs` lines
360-363): the route `/api/v1/streaming` appended to the base URL, then the
query pairs `access_token=<token>` and `stream=user` appended to its query. -/
def streamUrl (base : Url) (token : Str) : Url :=
  { base with
      path := base.path ++ str "/api/v1/streaming"
      query := base.query ++ [(str "access_token", token), (str "stream", str "user")] }

/-- `Mastodon::streaming_user` from `src/mastodon.rs` lines 359-379.
The URL built by `streamUrl` is fetched by `reqwest::blocking::get` — a bare
GET with no Authorization header (`resolve`, an external collaborator that
follows redirects and yields the final URL); the final scheme is rewritten via
`schemeMap`, any other scheme aborting with `Bad URL scheme` before any
WebSocket attempt; finally `tungstenite::connect` (`connect`) is tried on the
rewritten URL. -/
def streamingUser (resolve : Url → Except Unit Url) (connect : Url → Except Unit Unit)
    (base : Url) (token : Str) : StreamingOutcome :=
  let u : Url := streamUrl base token
  let req : GetRequest := ⟨u, none⟩
  match resolve u with
  | .error _ => ⟨.error .getFailed, req, []⟩
  | .ok fin =>
    match schemeMap fin.scheme with
    | none => ⟨.error (.badScheme fin.scheme), req, []⟩
    | some ns =>
      let target : Url := { fin with scheme := ns }
      match connect target with
      | .ok _ => ⟨.ok target, req, [target]⟩
      | .error _ => ⟨.error .connectFailed, req, [target]⟩

/-- A codec whose `Status` decoder always succeeds, keeping the payload text;
a stand-in for a serde decode that accepts the given payload. -/
def statusCodec : Codec := ⟨fun s => some ⟨s⟩, fun _ => none, fun _ => none⟩

/-- A codec whose dialect-B decoder accepts exactly the one-line JSON envelope
naming the `filters_changed` event with no payload. -/
def messageCodec : Codec :=
  ⟨fun _ => none, fun _ => none,
   fun s => if s = str "\x7b\"event\":\"filters_changed\"\x7d" then
     some ⟨str "filters_changed", none⟩ else none⟩

theorem pull_eof (c : Codec) (fuel : Nat) (lines : List Str) :
    pull c fuel [] lines = none := by
  induction fuel with
  | zero => rfl
  | succ n ih => exact ih

theorem pull_skip (c : Codec) (r : ReadResult) (h : skippable r = true)
    (fuel : Nat) (rest : List ReadResult) (lines : List Str) :
    pull c (fuel + 1) (r :: rest) lines = pull c fuel rest lines := by
  cases r with
  | err => rfl
  | ok raw =>
    simp only [skippable] at h
    simp [pull, h]

theorem pull_skip_all (c : Codec) (junk : List ReadResult)
    (h : ∀ r ∈ junk, skippable r = true)
    (fuel : Nat) (rest : List ReadResult) (lines : List Str) :
    pull c (junk.length + fuel) (junk ++ rest) lines = pull c fuel rest lines := by
  induction junk with
  | nil => simp
  | cons r js ih =>
    have hr : skippable r = true := h r (by simp)
    have hjs : ∀ x ∈ js, skippable x = true := fun x hx => h x (by simp [hx])
    have hl : (r :: js).length + fuel = js.length + fuel + 1 := by
      simp only [List.length_cons]
      omega
    rw [hl, List.cons_append, pull_skip c r hr]
    exact ih hjs

theorem pull_step_fail (c : Codec) (raw : Str) (lines : List Str) (er : Err)
    (h1 : startsWith (trim raw) (str ":") = false)
    (h2 : (trim raw).isEmpty = false)
    (h3 : makeEvent c (lines ++ [trim raw]) = .error er)
    (fuel : Nat) (rest : List ReadResult) :
    pull c (fuel + 1) (.ok raw :: rest) lines = pull c fuel rest (lines ++ [trim raw]) := by
  simp [pull, h1, h2, h3]

theorem pull_step_emit (c : Codec) (raw : Str) (lines : List Str) (ev : Event)
    (h1 : startsWith (trim raw) (str ":") = false)
    (h2 : (trim raw).isEmpty = false)
    (h3 : makeEvent c (lines ++ [trim raw]) = .ok ev)
    (fuel : Nat) (rest : List ReadResult) :
    pull c (fuel + 1) (.ok raw :: rest) lines = some (ev, rest) := by
  simp [pull, h1, h2, h3]

theorem eventFromPair_unknown (c : Codec) (name : Str) (dat : Option Str)
    (h : name ∉ [str "notification", str "update", str "delete", str "filters_changed"]) :
    eventFromPair c name dat = .error (.unknownEvent name) := by
  simp only [List.mem_cons, List.not_mem_nil, or_false, not_or] at h
  obtain ⟨h1, h2, h3, h4⟩ := h
  simp [eventFromPair, h1, h2, h3, h4]

theorem makeEvent_of_find (c : Codec) (lines : List Str) (b : Str)
    (h : lines.find? (fun l => startsWith l (str "event:")) = some b) :
    makeEvent c lines = eventFromPair c (trim (b.drop 6))
      ((lines.find? (fun l => startsWith l (str "data:"))).map (fun x => trim (x.drop 5))) := by
  simp [makeEvent, h]

theorem pull_wedged (c : Codec) (b : Str)
    (hb : trim (b.drop 6) ∉ [str "notification", str "update", str "delete", str "filters_changed"])
    (fuel : Nat) :
    ∀ (src : List ReadResult) (lines : List Str),
      lines.find? (fun l => startsWith l (str "event:")) = some b →
      pull c fuel src lines = none := by
  induction fuel with
  | zero => intro src lines _; rfl
  | succ n ih =>
    intro src lines h
    match src with
    | [] => exact pull_eof c (n + 1) lines
    | .err :: rest => exact ih rest lines h
    | .ok raw :: rest =>
      by_cases hskip : (startsWith (trim raw) (str ":") || (trim raw).isEmpty) = true
      · rw [pull_skip c (.ok raw) (by simpa [skippable] using hskip)]
        exact ih rest lines h
      · have hsp : startsWith (trim raw) (str ":") = false ∧ ¬trim raw = [] := by
          simpa using hskip
        have h2 : (trim raw).isEmpty = false := by
          cases hE : (trim raw).isEmpty
          · rfl
          · exact absurd (List.isEmpty_iff.mp hE) hsp.2
        have hfind : (lines ++ [trim raw]).find? (fun l => startsWith l (str "event:")) = some b := by
          rw [List.find?_append, h]
          rfl
        have hmk : makeEvent c (lines ++ [trim raw]) = .error (.unknownEvent (trim (b.drop 6))) := by
          rw [makeEvent_of_find c _ b hfind, eventFromPair_unknown c _ _ hb]
        rw [pull_step_fail c raw lines _ hsp.1 h2 hmk]
        exact ih rest (lines ++ [trim raw]) hfind

theorem pullOld_stuck (c : Codec) (lines : List Str) (er : Err)
    (h1 : makeEventOld c lines = .error er) (h2 : lines.isEmpty = false)
    (fuel : Nat) : pullOld c fuel [] lines = none := by
  induction fuel with
  | zero => rfl
  | succ n ih =>
    simp only [pullOld, h1, h2]
    exact ih

theorem makeEvent_two_lines (c : Codec) (el dl : Str) (more : List Str)
    (h1 : startsWith el (str "event:") = true)
    (h2 : startsWith el (str "data:") = false)
    (h3 : startsWith dl (str "data:") = true) :
    makeEvent c (el :: dl :: more) =
      eventFromPair c (trim (el.drop 6)) (some (trim (dl.drop 5))) := by
  have hfe : (el :: dl :: more).find? (fun l => startsWith l (str "event:")) = some el :=
    List.find?_cons_of_pos _ h1
  have hfd : (el :: dl :: more).find? (fun l => startsWith l (str "data:")) = some dl := by
    rw [List.find?_cons_of_neg _ (by simp [h2])]
    exact List.find?_cons_of_pos _ h3
  rw [makeEvent_of_find c _ el hfe, hfd]
  rfl

/-- Claim C1: the spec says a frame with an unknown event name makes the pull
report an `UnknownEvent` error, reset the accumulator and leave the decoder
able to decode the next well-formed frame.  The code fails this: the internal
`make_event` error exists (first conjunct) but `next` discards it with
`if let Ok` (its item type is `Event`, so no error can reach the caller),
never clears the accumulator, and `find` keeps selecting the stale
`event: bogus` line, so on the input `event: bogus`, blank,
`event: filters_changed`, blank the pull never yields any event at all — for
every fuel bound it is still looping (second conjunct). -/
theorem c1_bad_frame_wedges_decoder (c : Codec) (fuel : Nat) :
    makeEvent c [str "event: bogus"] = .error (.unknownEvent (str "bogus")) ∧
    pull c fuel
      [.ok (str "event: bogus"), .ok [], .ok (str "event: filters_changed"), .ok []] []
      = none := by
  refine ⟨rfl, ?_⟩
  match fuel with
  | 0 => rfl
  | n + 1 =>
    have h3 : makeEvent c ([] ++ [trim (str "event: bogus")]) =
        .error (.unknownEvent (str "bogus")) := rfl
    rw [pull_step_fail c (str "event: bogus") [] _ (by decide) (by decide) h3]
    exact pull_wedged c (str "event: bogus") (by decide) n _ _ (by decide)

/-- Claim C2: the spec says a pull ends with the event sequence exactly when
the underlying source signals end-of-input.  The code fails this: `next` has
no branch returning `None`, and on an exhausted source (`BufRead::read_line`
returns `Ok` with an empty buffer forever; a closed WebSocket returns `Err`
forever) the loop skips and retries for every fuel bound — the pull after
exhaustion never terminates instead of reporting end of sequence. -/
theorem c2_eof_never_terminates (c : Codec) (fuel : Nat) (lines : List Str) :
    pull c fuel [] lines = none :=
  pull_eof c fuel lines

/-- Claim C3: event construction from the extracted pair is a deterministic,
case-sensitive exact match on the event name: `notification` and `update`
require a payload and decode it as the corresponding entity, `delete` requires
a payload and uses it verbatim as the status id, `filters_changed` needs no
payload, a missing required payload fails with an error naming the event it
was missing for, and any other name — including any case variant of the four —
fails with an unknown-event error. -/
theorem c3_event_mapping (c : Codec) (d : Str) (dat : Option Str) (name : Str)
    (h : name ∉ [str "notification", str "update", str "delete", str "filters_changed"]) :
    eventFromPair c (str "notification") none = .error (.missingPayload (str "notification")) ∧
    eventFromPair c (str "update") none = .error (.missingPayload (str "update")) ∧
    eventFromPair c (str "delete") none = .error (.missingPayload (str "delete")) ∧
    eventFromPair c (str "notification") (some d) =
      (match c.decNotif d with
       | some n => .ok (.notif n)
       | none => .error .decode) ∧
    eventFromPair c (str "update") (some d) =
      (match c.decStatus d with
       | some s => .ok (.update s)
       | none => .error .decode) ∧
    eventFromPair c (str "delete") (some d) = .ok (.delete d) ∧
    eventFromPair c (str "filters_changed") dat = .ok .filtersChanged ∧
    eventFromPair c name dat = .error (.unknownEvent name) := by
  refine ⟨rfl, rfl, rfl, rfl, rfl, rfl, ?_, eventFromPair_unknown c name dat h⟩
  cases dat <;> rfl

/-- Witness for C3 at the unknown (and case-mismatched) name `Update`. -/
theorem c3_event_mapping_witness :
    (str "Update" ∉ [str "notification", str "update", str "delete", str "filters_changed"]) ∧
    eventFromPair nullCodec (str "Update") none = .error (.unknownEvent (str "Update")) :=
  ⟨by decide,
   (c3_event_mapping nullCodec [] none (str "Update") (by decide)).2.2.2.2.2.2.2⟩

/-- Claim C4: for a dialect-A frame `event: update` then `data: <payload>`,
with comment lines, blank lines and read errors interspersed anywhere before
and between the two content lines, the pull yields exactly one
`Event::Update` carrying the decoded status, for any surplus fuel; the
payload is the remainder of the data line after the `data:` prefix, trimmed.
The frame completes on the data line itself, so a trailing blank line is not
even consumed; a source holding only boundary lines yields nothing (last
conjunct).  Only the first `data:` line is consulted: the middle conjunct
computes `make_event` on a frame with a second data-like line `d2`, which is
arbitrary and does not influence the result. -/
theorem c4_dialect_a_update (c : Codec) (junk1 junk2 rest : List ReadResult)
    (e d dl d2 : Str) (st : Status) (f : Nat)
    (hj1 : ∀ r ∈ junk1, skippable r = true) (hj2 : ∀ r ∈ junk2, skippable r = true)
    (he : trim e = str "event: update")
    (hd : trim d = dl)
    (hd1 : startsWith dl (str "data:") = true)
    (hd2 : startsWith dl (str ":") = false)
    (hd3 : dl.isEmpty = false)
    (hdec : c.decStatus (trim (dl.drop 5)) = some st) :
    pull c (junk1.length + junk2.length + f + 2)
      (junk1 ++ (.ok e :: (junk2 ++ (.ok d :: rest)))) [] = some (.update st, rest) ∧
    makeEvent c [str "event: update", dl, d2] = .ok (.update st) ∧
    (∀ fuel, pull c fuel [.ok [], .ok (str ": keep-alive")] [] = none) := by
  have hmk : ∀ more, makeEvent c (str "event: update" :: dl :: more) = .ok (.update st) := by
    intro more
    rw [makeEvent_two_lines c _ dl more (by decide) (by decide) hd1]
    have ht : trim ((str "event: update").drop 6) = str "update" := by decide
    have hu : eventFromPair c (str "update") (some (trim (dl.drop 5))) =
        (match c.decStatus (trim (dl.drop 5)) with
         | some s => .ok (.update s)
         | none => .error .decode) := rfl
    rw [ht, hu, hdec]
  refine ⟨?_, hmk [d2], ?_⟩
  · have hf : junk1.length + junk2.length + f + 2 =
        junk1.length + (junk2.length + (f + 1) + 1) := by omega
    rw [hf, pull_skip_all c junk1 hj1 _ _ _]
    have hstep1 : makeEvent c ([] ++ [trim e]) = .error (.missingPayload (str "update")) := by
      rw [he]
      rfl
    rw [pull_step_fail c e [] _ (by rw [he]; decide) (by rw [he]; decide) hstep1]
    rw [he, pull_skip_all c junk2 hj2 _ _ _]
    have hstep2 : makeEvent c (([] ++ [str "event: update"]) ++ [trim d]) = .ok (.update st) := by
      rw [hd]
      exact hmk []
    exact pull_step_emit c d _ _ (by rw [hd]; exact hd2)
      (by rw [hd]; exact hd3) hstep2 f rest
  · intro fuel
    match fuel with
    | 0 => rfl
    | f1 + 1 =>
      rw [pull_skip c (.ok []) (by decide)]
      match f1 with
      | 0 => rfl
      | f2 + 1 =>
        rw [pull_skip c (.ok (str ": keep-alive")) (by decide)]
        exact pull_eof c f2 []

/-- Witness for C4: comment line, read error and blank line interspersed
around `event: update` and `data: 7`; `statusCodec` accepts the payload `7`. -/
theorem c4_dialect_a_update_witness :
    (∀ r ∈ ([.ok (str ": keep-alive"), .err] : List ReadResult), skippable r = true) ∧
    (∀ r ∈ ([.ok []] : List ReadResult), skippable r = true) ∧
    trim (str " event: update ") = str "event: update" ∧
    trim (str "data: 7") = str "data: 7" ∧
    startsWith (str "data: 7") (str "data:") = true ∧
    startsWith (str "data: 7") (str ":") = false ∧
    (str "data: 7").isEmpty = false ∧
    statusCodec.decStatus (trim ((str "data: 7").drop 5)) = some ⟨str "7"⟩ ∧
    (pull statusCodec 5
        ([.ok (str ": keep-alive"), .err] ++
          (.ok (str " event: update ") :: ([.ok []] ++ (.ok (str "data: 7") :: [.ok []])))) []
      = some (.update ⟨str "7"⟩, [.ok []]) ∧
     makeEvent statusCodec [str "event: update", str "data: 7", str "data: 8"]
      = .ok (.update ⟨str "7"⟩) ∧
     (∀ fuel, pull statusCodec fuel [.ok [], .ok (str ": keep-alive")] [] = none)) :=
  ⟨by decide, by decide, by decide, by decide, by decide, by decide, by decide, by decide,
   c4_dialect_a_update statusCodec [.ok (str ": keep-alive"), .err] [.ok []] [.ok []]
     (str " event: update ") (str "data: 7") (str "data: 7") (str "data: 8") ⟨str "7"⟩ 0
     (by decide) (by decide) (by decide) (by decide) (by decide) (by decide) (by decide)
     (by decide)⟩

/-- Claim C5: when no accumulated line starts with `event:`, `make_event`
falls back to dialect B, parsing the first accumulated line as a JSON object
with an `event` field and an optional `payload` field, which supplies the
name/payload pair directly (first conjunct); in particular a pull on the
single line holding that JSON envelope for `filters_changed` yields
`Event::FiltersChanged` (second conjunct). -/
theorem c5_dialect_b_fallback (c : Codec) (lines : List Str) (m : Message) (j : Str)
    (f : Nat) (rest : List ReadResult)
    (hA : ∀ l ∈ lines, startsWith l (str "event:") = false)
    (hm : c.decMessage (lines.headD []) = some m)
    (hj0 : trim j = j)
    (hj1 : startsWith j (str ":") = false)
    (hj2 : j.isEmpty = false)
    (hj3 : startsWith j (str "event:") = false)
    (hjm : c.decMessage j = some ⟨str "filters_changed", none⟩) :
    makeEvent c lines = eventFromPair c m.event m.payload ∧
    pull c (f + 1) (.ok j :: rest) [] = some (.filtersChanged, rest) := by
  constructor
  · have hfind : lines.find? (fun l => startsWith l (str "event:")) = none := by
      rw [List.find?_eq_none]
      intro x hx
      simp [hA x hx]
    simp only [makeEvent, hfind]
    rw [hm]
  · have hmk : makeEvent c ([] ++ [trim j]) = .ok .filtersChanged := by
      rw [hj0]
      have hfind : [j].find? (fun l => startsWith l (str "event:")) = none := by
        rw [List.find?_eq_none]
        intro x hx
        rw [List.mem_singleton] at hx
        simp [hx, hj3]
      simp only [List.nil_append, makeEvent, hfind]
      rw [show ([j].headD []) = j from rfl, hjm]
      rfl
    rw [pull_step_emit c j [] _ (by rw [hj0]; exact hj1) (by rw [hj0]; exact hj2) hmk]

/-- Witness for C5: the single-line envelope naming `filters_changed`, with a
codec that parses exactly that line. -/
theorem c5_dialect_b_fallback_witness :
    (∀ l ∈ [str "\x7b\"event\":\"filters_changed\"\x7d"], startsWith l (str "event:") = false) ∧
    messageCodec.decMessage ([str "\x7b\"event\":\"filters_changed\"\x7d"].headD [])
      = some ⟨str "filters_changed", none⟩ ∧
    trim (str "\x7b\"event\":\"filters_changed\"\x7d") = str "\x7b\"event\":\"filters_changed\"\x7d" ∧
    startsWith (str "\x7b\"event\":\"filters_changed\"\x7d") (str ":") = false ∧
    (str "\x7b\"event\":\"filters_changed\"\x7d").isEmpty = false ∧
    startsWith (str "\x7b\"event\":\"filters_changed\"\x7d") (str "event:") = false ∧
    messageCodec.decMessage (str "\x7b\"event\":\"filters_changed\"\x7d")
      = some ⟨str "filters_changed", none⟩ ∧
    (makeEvent messageCodec [str "\x7b\"event\":\"filters_changed\"\x7d"]
        = eventFromPair messageCodec (str "filters_changed") none ∧
     pull messageCodec 1 [.ok (str "\x7b\"event\":\"filters_changed\"\x7d")] []
        = some (.filtersChanged, [])) :=
  ⟨by decide, by decide, by decide, by decide, by decide, by decide, by decide,
   c5_dialect_b_fallback messageCodec [str "\x7b\"event\":\"filters_changed\"\x7d"]
     ⟨str "filters_changed", none⟩ (str "\x7b\"event\":\"filters_changed\"\x7d") 0 []
     (by decide) (by decide) (by decide) (by decide) (by decide) (by decide) (by decide)⟩

/-- Claim C6: the two event-reader implementations disagree on when a frame is
complete.  On the input `event: filters_changed`, `event: delete`, `data: 9`
with no separating blank lines, the `event_stream.rs` reader — which attempts
completion after every appended line — yields `FiltersChanged` on the first
pull and `Delete 9` on the second, while the `lib.rs` reader — which attempts
completion only at a blank-line boundary (here the EOF blank) over the whole
accumulation — yields `FiltersChanged` once and then never yields again for
any fuel bound: the two readers produce different event sequences. -/
theorem c6_two_readers_disagree :
    pull nullCodec 1
      [.ok (str "event: filters_changed"), .ok (str "event: delete"), .ok (str "data: 9")] []
      = some (.filtersChanged, [.ok (str "event: delete"), .ok (str "data: 9")]) ∧
    pull nullCodec 2 [.ok (str "event: delete"), .ok (str "data: 9")] []
      = some (.delete (str "9"), []) ∧
    pullOld nullCodec 4
      [.ok (str "event: filters_changed"), .ok (str "event: delete"), .ok (str "data: 9")] []
      = some (.filtersChanged, []) ∧
    (∀ fuel, pullOld nullCodec fuel [] [] = none) := by
  refine ⟨by decide, by decide, by decide, ?_⟩
  intro fuel
  match fuel with
  | 0 => rfl
  | n + 1 =>
    show pullOld nullCodec n [] [[]] = none
    exact pullOld_stuck nullCodec [[]] .noEventLine rfl rfl n

/-- Claim C7: the body decode behaves as one dual-decode function: a body that
decodes as the target type yields it; otherwise the same bytes are decoded as
the API-error type, yielding `Err(Api(..))` on success; otherwise the original
decode error of the first attempt is returned — one fallback, no retry, and
the fallback cannot silently succeed. -/
theorem c7_dual_decode {T : Type} (decT : Str → Except Str T)
    (decApi : Str → Except Str ApiError) (bytes : Str) :
    (∀ t, decT bytes = .ok t → deserialiseBlocking decT decApi bytes = .ok t) ∧
    (∀ e ae, decT bytes = .error e → decApi bytes = .ok ae →
      deserialiseBlocking decT decApi bytes = .error (.api ae)) ∧
    (∀ e e2, decT bytes = .error e → decApi bytes = .error e2 →
      deserialiseBlocking decT decApi bytes = .error (.serde e)) := by
  refine ⟨?_, ?_, ?_⟩ <;> intros <;> simp [deserialiseBlocking, *]

/-- Witness for C7 on the fallback branch: the target decode fails, the
API-error decode succeeds, and the result is the API error. -/
theorem c7_dual_decode_witness :
    deserialiseBlocking (fun _ => (.error (str "boom") : Except Str Status))
      (fun _ => .ok ⟨str "denied"⟩) (str "body") = .error (.api ⟨str "denied"⟩) :=
  (c7_dual_decode (fun _ => (.error (str "boom") : Except Str Status))
    (fun _ => .ok ⟨str "denied"⟩) (str "body")).2.1 (str "boom") ⟨str "denied"⟩ rfl rfl

/-- Claim C8: a Page built from a response without a Link header, or whose
Link header lacks the relevant relation, answers `Ok(None)` from both
`next_page` and `prev_page`, and neither call issues any HTTP request (the
request log is empty). -/
theorem c8_absent_link_terminal {T : Type} (fetch : Str → FetchResult T)
    (items : List T) (hdr : Str)
    (hn : findRel (str "next") hdr = none) (hp : findRel (str "prev") hdr = none) :
    nextPage fetch (pageFromResponse items none) = (.ok none, []) ∧
    prevPage fetch (pageFromResponse items none) = (.ok none, []) ∧
    nextPage fetch (pageFromResponse items (some hdr)) = (.ok none, []) ∧
    prevPage fetch (pageFromResponse items (some hdr)) = (.ok none, []) := by
  refine ⟨rfl, rfl, ?_, ?_⟩
  · simp [nextPage, pageFromResponse, hn]
  · simp [prevPage, pageFromResponse, hp]

/-- Witness for C8: a Link header carrying only a `last` relation has neither
`next` nor `prev`, and both calls return `Ok(None)` without requesting. -/
theorem c8_absent_link_terminal_witness :
    findRel (str "next") (str "<https://x.example/p9>; rel=\"last\"") = none ∧
    findRel (str "prev") (str "<https://x.example/p9>; rel=\"last\"") = none ∧
    nextPage (fun _ => (.error (str "no") : FetchResult Nat))
      (pageFromResponse [1, 2] (some (str "<https://x.example/p9>; rel=\"last\"")))
      = (.ok none, []) :=
  ⟨by decide, by decide,
   (c8_absent_link_terminal (fun _ => (.error (str "no") : FetchResult Nat)) [1, 2]
     (str "<https://x.example/p9>; rel=\"last\"") (by decide) (by decide)).2.2.1⟩

/-- Claim C9: the flattening iterator yields the items of the current page and
then, when there is no next link, simply ends; when the follow-up fetch of the
next link fails, it also simply ends after the same items — the failure is
collapsed into plain termination (the output type carries no error value) and
nothing is ever yielded afterwards. -/
theorem c9_items_iter_silent {T : Type} (fetch : Str → Except Str (List T × Option Str))
    (buf : List T) (url e : Str) (f : Nat)
    (hf : buf.length < f) (he : fetch url = .error e) :
    itemsIterRun fetch f ⟨buf, none⟩ = buf ∧
    itemsIterRun fetch f ⟨buf, some url⟩ = buf := by
  induction buf generalizing f with
  | nil =>
    match f, hf with
    | f1 + 1, _ => exact ⟨rfl, by simp [itemsIterRun, he]⟩
  | cons t ts ih =>
    match f, hf with
    | f1 + 1, hf =>
      have h1 : ts.length < f1 := by
        simp only [List.length_cons] at hf
        omega
      obtain ⟨ih1, ih2⟩ := ih f1 h1
      exact ⟨by simp [itemsIterRun, ih1], by simp [itemsIterRun, ih2]⟩

/-- Witness for C9: a two-item page whose next link always fails to fetch
yields exactly the two items. -/
theorem c9_items_iter_silent_witness :
    ([10, 20] : List Nat).length < 3 ∧
    (fun _ : Str => (.error (str "io") : Except Str (List Nat × Option Str))) (str "u")
      = .error (str "io") ∧
    itemsIterRun (fun _ => (.error (str "io") : Except Str (List Nat × Option Str))) 3
      ⟨[10, 20], some (str "u")⟩ = [10, 20] :=
  ⟨by decide, rfl,
   (c9_items_iter_silent (fun _ => (.error (str "io") : Except Str (List Nat × Option Str)))
     [10, 20] (str "u") (str "io") 3 (by decide) rfl).2⟩

/-- Claim C10: `streaming_user` issues a bare GET (no Authorization header) to
the streaming route with the bearer token carried as the `access_token` query
pair plus `stream=user` (first two conjuncts); after redirect resolution the
final scheme `http` is rewritten to `ws` and `https` to `wss` before the one
WebSocket connection attempt; any other final scheme yields the bad-scheme
error with no WebSocket connection attempt at all. -/
theorem c10_streaming_user (resolve : Url → Except Unit Url)
    (connect : Url → Except Unit Unit) (base : Url) (token : Str) (fin : Url) :
    (streamingUser resolve connect base token).getRequest = ⟨streamUrl base token, none⟩ ∧
    (streamUrl base token).query
      = base.query ++ [(str "access_token", token), (str "stream", str "user")] ∧
    (resolve (streamUrl base token) = .ok fin → fin.scheme = str "http" →
      (streamingUser resolve connect base token).wsAttempts
        = [{ fin with scheme := str "ws" }]) ∧
    (resolve (streamUrl base token) = .ok fin → fin.scheme = str "https" →
      (streamingUser resolve connect base token).wsAttempts
        = [{ fin with scheme := str "wss" }]) ∧
    (resolve (streamUrl base token) = .ok fin → schemeMap fin.scheme = none →
      (streamingUser resolve connect base token).result = .error (.badScheme fin.scheme) ∧
      (streamingUser resolve connect base token).wsAttempts = []) := by
  refine ⟨?_, rfl, ?_, ?_, ?_⟩
  · rcases hr : resolve (streamUrl base token) with u1 | fin1
    · simp [streamingUser, hr]
    · rcases hs : schemeMap fin1.scheme with _ | ns
      · simp [streamingUser, hr, hs]
      · rcases hc : connect { fin1 with scheme := ns } with u2 | u3 <;>
          simp [streamingUser, hr, hs, hc]
  · intro hr hs
    have hsm : schemeMap fin.scheme = some (str "ws") := by rw [hs]; rfl
    rcases hc : connect { fin with scheme := str "ws" } with u2 | u3 <;>
      simp [streamingUser, hr, hsm, hc]
  · intro hr hs
    have hsm : schemeMap fin.scheme = some (str "wss") := by rw [hs]; rfl
    rcases hc : connect { fin with scheme := str "wss" } with u2 | u3 <;>
      simp [streamingUser, hr, hsm, hc]
  · intro hr hs
    constructor <;> simp [streamingUser, hr, hs]

/-- Witness for C10: a redirect landing on an `https` URL is rewritten to
`wss` and is the only connection attempt. -/
theorem c10_streaming_user_witness :
    ((fun _ : Url => (.ok ⟨str "https", str "h.example", str "/s", []⟩ : Except Unit Url))
        (streamUrl ⟨str "https", str "h.example", str "", []⟩ (str "tok"))
      = .ok ⟨str "https", str "h.example", str "/s", []⟩) ∧
    (⟨str "https", str "h.example", str "/s", []⟩ : Url).scheme = str "https" ∧
    (streamingUser (fun _ => .ok ⟨str "https", str "h.example", str "/s", []⟩)
        (fun _ => .ok ()) ⟨str "https", str "h.example", str "", []⟩ (str "tok")).wsAttempts
      = [⟨str "wss", str "h.example", str "/s", []⟩] :=
  ⟨rfl, rfl,
   (c10_streaming_user (fun _ => .ok ⟨str "https", str "h.example", str "/s", []⟩)
     (fun _ => .ok ()) ⟨str "https", str "h.example", str "", []⟩ (str "tok")
     ⟨str "https", str "h.example", str "/s", []⟩).2.2.2.1 rfl rfl⟩

end Elefren
